import Mathlib

/-!
Verification of the password-generator core (charset construction, secure
generation, entropy estimation, strength scoring, policy validation).

Go strings are byte sequences; we model them as `List Nat` (byte values).
All alphabets and passwords of interest are ASCII, where Go's rune-based
case folding and regex character classes coincide with the byte-level
predicates used here.  Go `int` values are modelled as `Int`; the `float64`
entropy value is modelled as the exact real number computed by the same
formula (every comparison the claims depend on has a wide margin, so the
idealisation agrees with the IEEE computation).
-/

set_option exponentiation.threshold 1000

/-- Bytes of a string literal (all constants used here are ASCII). -/
def strBytes (s : String) : List Nat := s.data.map Char.toNat

-- Character class constants from main.go.
def LowerCase : List Nat := strBytes "abcdefghijklmnopqrstuvwxyz"

def UpperCase : List Nat := strBytes "ABCDEFGHIJKLMNOPQRSTUVWXYZ"

def Digits : List Nat := strBytes "0123456789"

def Symbols : List Nat := strBytes "!@#$%^&*()_+-=[]\x7b\x7d|;:,.<>?"

def Ambiguous : List Nat := strBytes "0O1lI"

/-- Struct `PasswordConfig` from main.go. -/
structure PasswordConfig where
  Length : Int
  IncludeUpper : Bool
  IncludeLower : Bool
  IncludeDigits : Bool
  IncludeSymbols : Bool
  ExcludeAmbiguous : Bool
deriving DecidableEq, Repr

/-- Function `validateConfig` from main.go; `none` models a nil error, `some msg`
models a non-nil error with message `msg`. -/
def validateConfig (config : PasswordConfig) : Option String :=
  if config.Length < 1 then
    some "password length must be at least 1"
  else if !config.IncludeUpper && !config.IncludeLower
      && !config.IncludeDigits && !config.IncludeSymbols then
    some "at least one character type must be enabled"
  else
    none

/-- Function `buildCharset` from main.go: concatenate the enabled class alphabets in
Lower, Upper, Digits, Symbols order, then (when `ExcludeAmbiguous`) remove
every occurrence of each ambiguous character; `strings.ReplaceAll result
(string char) ""` for a single character is exactly a filter. -/
def baseCharset (config : PasswordConfig) : List Nat :=
  (if config.IncludeLower then LowerCase else [])
  ++ (if config.IncludeUpper then UpperCase else [])
  ++ (if config.IncludeDigits then Digits else [])
  ++ (if config.IncludeSymbols then Symbols else [])

def buildCharset (config : PasswordConfig) : List Nat :=
  if config.ExcludeAmbiguous then
    Ambiguous.foldl (fun result c => result.filter (fun b => b != c)) (baseCharset config)
  else
    baseCharset config

/-- Outcome of `generatePassword`: a normal return of a password, a non-nil
error return, or a runtime panic (which Go does not surface as an error). -/
inductive GenOutcome where
  | ok (password : List Nat)
  | error (msg : String)
  | panic
deriving DecidableEq, Repr

/-- The generation loop of `generatePassword`: draw `n` characters starting
at draw index `i`.  The random source `r` models `rand.Int(rand.Reader,
len(charset))`: `r i = some k` is a successful draw of index `k` (the
`crypto/rand` contract guarantees `k < len charset`), `r i = none` models a
failure of the secure random source, which aborts with an error. -/
def drawChars (charset : List Nat) (r : Nat → Option Nat) : Nat → Nat → Option (List Nat)
  | _, 0 => some []
  | i, n + 1 =>
    match r i with
    | none => none
    | some k =>
      match drawChars charset r (i + 1) n with
      | none => none
      | some rest => some (charset.getD k 0 :: rest)

/-- Function `generatePassword` from main.go.  The empty-charset check precedes the
buffer allocation `make([]byte, config.Length)`, which panics when
`config.Length` is negative; otherwise `config.Length` draws are taken. -/
def generatePassword (config : PasswordConfig) (r : Nat → Option Nat) : GenOutcome :=
  let charset := buildCharset config
  if charset.length = 0 then
    .error "no valid characters available for password generation"
  else if config.Length < 0 then
    .panic
  else
    match drawChars charset r 0 config.Length.toNat with
    | none => .error "failed to generate random number"
    | some password => .ok password

example : (buildCharset ⟨8, true, true, true, true, false⟩).length = 88 := by decide
example : (buildCharset ⟨8, false, false, true, false, true⟩) = strBytes "23456789" := by decide
example : validateConfig ⟨0, true, true, true, false, false⟩ = some "password length must be at least 1" := by decide

-- ## Strength analysis (part_003)

/-- Byte is an ASCII lowercase letter (regex class `[a-z]`). -/
def isLowerB (b : Nat) : Bool := 97 ≤ b && b ≤ 122

/-- Byte is an ASCII uppercase letter (regex class `[A-Z]`). -/
def isUpperB (b : Nat) : Bool := 65 ≤ b && b ≤ 90

/-- Byte is an ASCII digit (regex class `[0-9]`). -/
def isDigitB (b : Nat) : Bool := 48 ≤ b && b ≤ 57

/-- Byte is alphanumeric; regex class `[^a-zA-Z0-9]` is its negation. -/
def isAlnumB (b : Nat) : Bool := isLowerB b || isUpperB b || isDigitB b

def hasLowerIn (password : List Nat) : Bool := password.any isLowerB

def hasUpperIn (password : List Nat) : Bool := password.any isUpperB

def hasDigitIn (password : List Nat) : Bool := password.any isDigitB

def hasSymbolIn (password : List Nat) : Bool := password.any (fun b => !isAlnumB b)

/-- ASCII lowercase fold of one byte, the byte-level content of
`strings.ToLower` on the ASCII inputs compared against here. -/
def toLowerB (b : Nat) : Nat := if 65 ≤ b && b ≤ 90 then b + 32 else b

/-- Go `strings.Contains haystack needle`. -/
def containsSub (haystack needle : List Nat) : Bool := decide (needle <:+: haystack)

/-- Function `hasRepeatedChars` from part_003: some index `i` with
`password[i] = password[i+1] = password[i+2]`. -/
def hasRepeatedChars (password : List Nat) : Bool :=
  (List.range (password.length - 2)).any fun i =>
    password.getD i 0 == password.getD (i + 1) 0
      && password.getD (i + 1) 0 == password.getD (i + 2) 0

/-- The sequence table of `hasSequentialChars`. -/
def sequences : List (List Nat) :=
  [strBytes "abcdefghijklmnopqrstuvwxyz",
   strBytes "ABCDEFGHIJKLMNOPQRSTUVWXYZ",
   strBytes "0123456789",
   strBytes "qwertyuiop", strBytes "asdfghjkl", strBytes "zxcvbnm",
   strBytes "QWERTYUIOP", strBytes "ASDFGHJKL", strBytes "ZXCVBNM"]

/-- One pass of `hasSequentialChars` over one sequence: does any length-3
window `seq[i:i+3]` occur in `lower`? -/
def rowHit (lower seq : List Nat) : Bool :=
  (List.range (seq.length - 2)).any fun i => containsSub lower ((seq.drop i).take 3)

/-- Function `hasSequentialChars` from part_003: lowercase the password, then scan
all length-3 windows of every table sequence, forward and reversed. -/
def hasSequentialChars (password : List Nat) : Bool :=
  let lower := password.map toLowerB
  (sequences.any fun seq => rowHit lower seq)
    || (sequences.any fun seq => rowHit lower seq.reverse)

/-- The sequence table with the uppercase rows removed; `hasSequentialChars`
never needs them (C10). -/
def lowerSequences : List (List Nat) :=
  [strBytes "abcdefghijklmnopqrstuvwxyz",
   strBytes "0123456789",
   strBytes "qwertyuiop", strBytes "asdfghjkl", strBytes "zxcvbnm"]

/-- Variant of `hasSequentialChars` restricted to the lowercase rows of its table. -/
def hasSequentialCharsTrimmed (password : List Nat) : Bool :=
  let lower := password.map toLowerB
  (lowerSequences.any fun seq => rowHit lower seq)
    || (lowerSequences.any fun seq => rowHit lower seq.reverse)

/-- The common weak-password substrings of `hasCommonPatterns`. -/
def commonPatterns : List (List Nat) :=
  [strBytes "password", strBytes "123456", strBytes "qwerty", strBytes "admin",
   strBytes "login", strBytes "welcome", strBytes "monkey", strBytes "dragon",
   strBytes "master", strBytes "shadow", strBytes "letmein", strBytes "football",
   strBytes "iloveyou", strBytes "sunshine", strBytes "princess"]

/-- The leet-substitution of `hasCommonPatterns` (`@→a 3→e 1→i 0→o 5→s 7→t`);
the Go code applies the six single-character `ReplaceAll`s in arbitrary map
order, and since no target is a source they commute with this byte map. -/
def substituteB (b : Nat) : Nat :=
  if b = 64 then 97 else if b = 51 then 101 else if b = 49 then 105
  else if b = 48 then 111 else if b = 53 then 115 else if b = 55 then 116
  else b

/-- Function `hasCommonPatterns` from part_003: match the pattern list against the
lowercased password, then against its substitution-normalised form. -/
def hasCommonPatterns (password : List Nat) : Bool :=
  let lower := password.map toLowerB
  (commonPatterns.any fun pat => containsSub lower pat)
    || (let normalized := lower.map substituteB
        commonPatterns.any fun pat => containsSub normalized pat)

/-- The character-space size of `calculateEntropy` (26/26/10/32 per class). -/
def charSpace (password : List Nat) : Nat :=
  (if hasLowerIn password then 26 else 0)
    + (if hasUpperIn password then 26 else 0)
    + (if hasDigitIn password then 10 else 0)
    + (if hasSymbolIn password then 32 else 0)

/-- Numerator of the compounded pattern penalty of `calculateEntropy`
(×0.8, ×0.7, ×0.6 written as 4/5, 7/10, 3/5). -/
def penaltyNum (password : List Nat) : Nat :=
  (if hasRepeatedChars password then 4 else 1)
    * (if hasSequentialChars password then 7 else 1)
    * (if hasCommonPatterns password then 3 else 1)

/-- Denominator of the compounded pattern penalty of `calculateEntropy`. -/
def penaltyDen (password : List Nat) : Nat :=
  (if hasRepeatedChars password then 5 else 1)
    * (if hasSequentialChars password then 10 else 1)
    * (if hasCommonPatterns password then 5 else 1)

/-- Function `calculateEntropy` from part_003, as the exact real value:
`0` when no class is present, otherwise
`length * log2(charSpace)` times the compounded pattern penalties. -/
noncomputable def calculateEntropy (password : List Nat) : ℝ :=
  if charSpace password = 0 then 0
  else (password.length : ℝ) * Real.logb 2 (charSpace password)
    * ((penaltyNum password : ℝ) / (penaltyDen password : ℝ))

/-- Decides `calculateEntropy password < t` for rational `0 < t` by exact
integer arithmetic: with `cs ≠ 0`, the strict inequality
`len·(num/den)·log2 cs < t` holds iff `cs ^ (len·num·t.den) < 2 ^ (t.num·den)`
(see `entropyLtQ_iff`).  This is the comparison the Go code performs on the
`float64` entropy value. -/
def entropyLtQ (password : List Nat) (t : ℚ) : Bool :=
  if charSpace password = 0 then decide (0 < t)
  else
    decide ((charSpace password) ^ (password.length * penaltyNum password * t.den)
      < 2 ^ (t.num.toNat * penaltyDen password))

def entropyGeQ (password : List Nat) (t : ℚ) : Bool := !entropyLtQ password t

example : hasSequentialChars (strBytes "weak123") = true := by decide
example : hasCommonPatterns (strBytes "weak123") = false := by decide
example : hasCommonPatterns (strBytes "p@ssw0rd") = true := by decide
example : hasRepeatedChars (strBytes "password11") = false := by decide
example : hasRepeatedChars (strBytes "password111") = true := by decide
example : charSpace (strBytes "weak123") = 36 := by decide
example : entropyLtQ (strBytes "weak123") 40 = true := by decide
example : entropyGeQ (strBytes "Rx7!kNm9@pQz") 60 = true := by decide

-- ## Strength scoring (part_003)

inductive StrengthLevel where
  | VeryWeak
  | Weak
  | Fair
  | Good
  | Strong
  | VeryStrong
deriving DecidableEq, Repr

/-- Function `getStrengthLevel` from part_003. -/
def getStrengthLevel (score : Int) : StrengthLevel :=
  if score < 20 then .VeryWeak
  else if score < 40 then .Weak
  else if score < 60 then .Fair
  else if score < 80 then .Good
  else if score < 95 then .Strong
  else .VeryStrong

/-- Length contribution to the score in `AnalyzePasswordStrength`. -/
def lengthScore (length : Nat) : Int :=
  if length < 8 then 0 else if length < 12 then 10 else if length < 16 then 20 else 30

/-- Character-variety contribution (10/10/10/15 per class, +10 when all four
classes are present) in `AnalyzePasswordStrength`. -/
def varietyScore (password : List Nat) : Int :=
  (if hasLowerIn password then 10 else 0)
    + (if hasUpperIn password then 10 else 0)
    + (if hasDigitIn password then 10 else 0)
    + (if hasSymbolIn password then 15 else 0)
    + (if hasLowerIn password && hasUpperIn password && hasDigitIn password
          && hasSymbolIn password then 10 else 0)

/-- Additive pattern penalties (−10/−15/−20) in `AnalyzePasswordStrength`. -/
def patternPenalty (password : List Nat) : Int :=
  (if hasRepeatedChars password then -10 else 0)
    + (if hasSequentialChars password then -15 else 0)
    + (if hasCommonPatterns password then -20 else 0)

/-- Entropy adjustment (`≥60→+20`, `≥40→+10`, `<25→−15`) in
`AnalyzePasswordStrength`, via the exact entropy comparisons. -/
def entropyAdjust (password : List Nat) : Int :=
  if entropyGeQ password 60 then 20
  else if entropyGeQ password 40 then 10
  else if entropyLtQ password 25 then -15
  else 0

/-- The two sequential clamping `if`s at the end of
`AnalyzePasswordStrength`. -/
def clampScore (score : Int) : Int :=
  let score := if score < 0 then 0 else score
  if score > 100 then 100 else score

/-- Feedback accumulated before the final positive message, in the order
the Go code appends it. -/
def baseFeedback (password : List Nat) : List String :=
  (if password.length < 8 then ["Use at least 8 characters"]
   else if password.length < 12 then ["Consider using 12+ characters for better security"]
   else [])
  ++ (if hasLowerIn password then [] else ["Add lowercase letters"])
  ++ (if hasUpperIn password then [] else ["Add uppercase letters"])
  ++ (if hasDigitIn password then [] else ["Add numbers"])
  ++ (if hasSymbolIn password then [] else ["Add symbols (!@#$%^&*)"])
  ++ (if hasRepeatedChars password then ["Avoid repeated characters"] else [])
  ++ (if hasSequentialChars password then ["Avoid sequential characters (abc, 123)"] else [])
  ++ (if hasCommonPatterns password then ["Avoid common patterns"] else [])
  ++ (if entropyGeQ password 60 then []
      else if entropyGeQ password 40 then []
      else if entropyLtQ password 25 then ["Password is too predictable"]
      else [])

/-- The result of `AnalyzePasswordStrength`; the `Entropy` and `TimeToCrack`
fields of the Go struct are the values `calculateEntropy password` and its
formatted crack-time estimate and are not duplicated here. -/
structure PasswordStrength where
  Score : Int
  Level : StrengthLevel
  Feedback : List String
deriving Repr, DecidableEq

/-- Function `AnalyzePasswordStrength` from part_003: sum the contributions, clamp to
[0,100], map to a level, and add the positive message when the clamped score
is at least 80 and no feedback was accumulated. -/
def AnalyzePasswordStrength (password : List Nat) : PasswordStrength :=
  let score := clampScore (lengthScore password.length + varietyScore password
    + patternPenalty password + entropyAdjust password)
  let feedback := baseFeedback password
  let feedback :=
    if score ≥ 80 && feedback.isEmpty then ["Excellent password strength!"] else feedback
  { Score := score, Level := getStrengthLevel score, Feedback := feedback }

-- ## Policy engine (part_002)

/-- Struct `PasswordPolicy` from part_002 (`MinEntropy` is a `float64` in Go; every
registry value is a small integer, modelled exactly as a rational). -/
structure PasswordPolicy where
  Name : String
  Description : String
  MinLength : Int
  MaxLength : Int
  RequireUpper : Bool
  RequireLower : Bool
  RequireDigits : Bool
  RequireSymbols : Bool
  MinUpper : Int
  MinLower : Int
  MinDigits : Int
  MinSymbols : Int
  ExcludeAmbiguous : Bool
  ForbiddenChars : List Nat
  ForbiddenPatterns : List (List Nat)
  MinEntropy : ℚ

/-- Registry entry `BuiltinPolicies["corporate"]` from part_002. -/
def corporatePolicy : PasswordPolicy where
  Name := "Corporate Standard"
  Description := "Standard corporate password policy with moderate security"
  MinLength := 12
  MaxLength := 0
  RequireUpper := true
  RequireLower := true
  RequireDigits := true
  RequireSymbols := true
  MinUpper := 2
  MinLower := 2
  MinDigits := 2
  MinSymbols := 1
  ExcludeAmbiguous := true
  ForbiddenChars := []
  ForbiddenPatterns := [strBytes "password", strBytes "123456", strBytes "qwerty",
    strBytes "admin", strBytes "login", strBytes "welcome"]
  MinEntropy := 40

/-- Registry entry `BuiltinPolicies["aws"]` from part_002 (the one with a
nonzero `MaxLength`). -/
def awsPolicy : PasswordPolicy where
  Name := "AWS IAM Policy"
  Description := "Meets AWS IAM password policy requirements"
  MinLength := 8
  MaxLength := 128
  RequireUpper := true
  RequireLower := true
  RequireDigits := true
  RequireSymbols := true
  MinUpper := 1
  MinLower := 1
  MinDigits := 1
  MinSymbols := 1
  ExcludeAmbiguous := false
  ForbiddenChars := []
  ForbiddenPatterns := []
  MinEntropy := 30

/-- Count `countMatches password [A-Z]` etc.: number of bytes in the class. -/
def countB (password : List Nat) (p : Nat → Bool) : Nat := (password.filter p).length

/-- Function `ValidatePasswordAgainstPolicy` from part_002, recording the `Rule` name
of each violation in the fixed check order (the `Description` strings carry
no additional decision content).  The ambiguous check emits a single
violation (the Go loop breaks at the first hit); the forbidden-character and
forbidden-pattern checks emit one violation per hit. -/
def ValidatePasswordAgainstPolicy (password : List Nat) (policy : PasswordPolicy) : List String :=
  let upperCount := countB password isUpperB
  let lowerCount := countB password isLowerB
  let digitCount := countB password isDigitB
  let symbolCount := countB password (fun b => !isAlnumB b)
  (if (password.length : Int) < policy.MinLength then ["MinLength"] else [])
  ++ (if policy.MaxLength > 0 && (password.length : Int) > policy.MaxLength
      then ["MaxLength"] else [])
  ++ (if policy.RequireUpper && upperCount = 0 then ["RequireUpper"] else [])
  ++ (if policy.RequireLower && lowerCount = 0 then ["RequireLower"] else [])
  ++ (if policy.RequireDigits && digitCount = 0 then ["RequireDigits"] else [])
  ++ (if policy.RequireSymbols && symbolCount = 0 then ["RequireSymbols"] else [])
  ++ (if (upperCount : Int) < policy.MinUpper then ["MinUpper"] else [])
  ++ (if (lowerCount : Int) < policy.MinLower then ["MinLower"] else [])
  ++ (if (digitCount : Int) < policy.MinDigits then ["MinDigits"] else [])
  ++ (if (symbolCount : Int) < policy.MinSymbols then ["MinSymbols"] else [])
  ++ (if policy.ExcludeAmbiguous && Ambiguous.any (fun c => password.contains c)
      then ["ExcludeAmbiguous"] else [])
  ++ ((policy.ForbiddenChars.filter (fun c => password.contains c)).map
      (fun _ => "ForbiddenChars"))
  ++ ((policy.ForbiddenPatterns.filter (fun pat =>
        containsSub (password.map toLowerB) (pat.map toLowerB))).map
      (fun _ => "ForbiddenPatterns"))
  ++ (if policy.MinEntropy > 0 && entropyLtQ password policy.MinEntropy
      then ["MinEntropy"] else [])

/-- Function `ApplyPolicyToConfig` from part_002 as a pure update of the mutated
`config`, preserving the order of the sequential field assignments. -/
def ApplyPolicyToConfig (policy : PasswordPolicy) (config : PasswordConfig) : PasswordConfig :=
  let config := if config.Length < policy.MinLength
    then { config with Length := policy.MinLength } else config
  let config := if policy.MaxLength > 0 && config.Length > policy.MaxLength
    then { config with Length := policy.MaxLength } else config
  let config := if policy.RequireUpper then { config with IncludeUpper := true } else config
  let config := if policy.RequireLower then { config with IncludeLower := true } else config
  let config := if policy.RequireDigits then { config with IncludeDigits := true } else config
  let config := if policy.RequireSymbols then { config with IncludeSymbols := true } else config
  if policy.ExcludeAmbiguous then { config with ExcludeAmbiguous := true } else config

example : ValidatePasswordAgainstPolicy (strBytes "weak123") corporatePolicy
    = ["MinLength", "RequireUpper", "RequireSymbols", "MinUpper", "MinSymbols",
       "ExcludeAmbiguous", "MinEntropy"] := by decide
example : ValidatePasswordAgainstPolicy (strBytes "MyC2rp2r@te!Secure") corporatePolicy = [] := by
  decide
example : (AnalyzePasswordStrength (strBytes "C0mpl3x!P@ssw0rd#2024")).Level
    = .Strong := by decide


theorem foldFilter_sublist (cs : List Nat) (l : List Nat) :
    List.Sublist (cs.foldl (fun result c => result.filter (fun b => b != c)) l) l := by
  induction cs generalizing l with
  | nil => exact List.Sublist.refl l
  | cons c cs ih =>
    exact (ih (l.filter (fun b => b != c))).trans (List.filter_sublist l)

theorem mem_foldFilter (cs : List Nat) (l : List Nat) (b : Nat) :
    b ∈ cs.foldl (fun result c => result.filter (fun x => x != c)) l
      ↔ b ∈ l ∧ ∀ c ∈ cs, b ≠ c := by
  induction cs generalizing l with
  | nil => simp
  | cons c cs ih =>
    rw [List.foldl_cons, ih]
    simp [List.mem_filter, and_assoc]

theorem ifList_sublist (b : Bool) (l : List Nat) : List.Sublist (if b then l else []) l := by
  cases b <;> simp

theorem buildCharset_sublist (config : PasswordConfig) :
    List.Sublist (buildCharset config) (LowerCase ++ UpperCase ++ Digits ++ Symbols) := by
  have hbase : List.Sublist (baseCharset config) (LowerCase ++ UpperCase ++ Digits ++ Symbols) :=
    (((ifList_sublist _ _).append (ifList_sublist _ _)).append
      (ifList_sublist _ _)).append (ifList_sublist _ _)
  unfold buildCharset
  split
  · exact (foldFilter_sublist _ _).trans hbase
  · exact hbase

theorem mem_baseCharset_of (config : PasswordConfig) (b : Nat)
    (h : (config.IncludeLower = true ∧ b ∈ LowerCase)
      ∨ (config.IncludeUpper = true ∧ b ∈ UpperCase)
      ∨ (config.IncludeDigits = true ∧ b ∈ Digits)
      ∨ (config.IncludeSymbols = true ∧ b ∈ Symbols)) :
    b ∈ baseCharset config := by
  simp only [baseCharset, List.mem_append]
  rcases h with ⟨hf, hm⟩ | ⟨hf, hm⟩ | ⟨hf, hm⟩ | ⟨hf, hm⟩ <;> simp [hf, hm]

theorem mem_buildCharset (config : PasswordConfig) (b : Nat)
    (hbase : b ∈ baseCharset config) (hamb : b ∉ Ambiguous) :
    b ∈ buildCharset config := by
  unfold buildCharset
  split
  · exact (mem_foldFilter _ _ _).mpr ⟨hbase, fun c hc hbc => hamb (hbc ▸ hc)⟩
  · exact hbase

theorem mem_buildCharset_of_exclude (config : PasswordConfig)
    (hex : config.ExcludeAmbiguous = true) (b : Nat) (hb : b ∈ buildCharset config) :
    b ∉ Ambiguous := by
  unfold buildCharset at hb
  rw [if_pos hex] at hb
  intro hmem
  exact ((mem_foldFilter _ _ _).mp hb).2 b hmem rfl

theorem buildCharset_nonempty (config : PasswordConfig)
    (hflag : config.IncludeUpper = true ∨ config.IncludeLower = true
      ∨ config.IncludeDigits = true ∨ config.IncludeSymbols = true) :
    0 < (buildCharset config).length := by
  have hwitness : ∃ b, b ∈ buildCharset config := by
    rcases hflag with h | h | h | h
    · exact ⟨65, mem_buildCharset config 65
        (mem_baseCharset_of config 65 (Or.inr (Or.inl ⟨h, by decide⟩))) (by decide)⟩
    · exact ⟨97, mem_buildCharset config 97
        (mem_baseCharset_of config 97 (Or.inl ⟨h, by decide⟩)) (by decide)⟩
    · exact ⟨50, mem_buildCharset config 50
        (mem_baseCharset_of config 50 (Or.inr (Or.inr (Or.inl ⟨h, by decide⟩)))) (by decide)⟩
    · exact ⟨33, mem_buildCharset config 33
        (mem_baseCharset_of config 33 (Or.inr (Or.inr (Or.inr ⟨h, by decide⟩)))) (by decide)⟩
  obtain ⟨b, hb⟩ := hwitness
  exact List.length_pos.mpr (List.ne_nil_of_mem hb)

-- ## Helper lemmas: the generation loop

theorem getD_mem_of_lt (l : List Nat) (i : Nat) (d : Nat) (h : i < l.length) :
    l.getD i d ∈ l := by
  induction l generalizing i with
  | nil => simp at h
  | cons a t ih =>
    cases i with
    | zero => simp
    | succ j =>
      simp only [List.getD_cons_succ]
      exact List.mem_cons_of_mem a (ih j (by simpa using h))

theorem drawChars_ok (charset : List Nat) (r : Nat → Option Nat)
    (hr : ∀ i, ∃ k, r i = some k ∧ k < charset.length) :
    ∀ (n i : Nat), ∃ l, drawChars charset r i n = some l
      ∧ l.length = n ∧ ∀ b ∈ l, b ∈ charset := by
  intro n
  induction n with
  | zero => exact fun i => ⟨[], rfl, rfl, by simp⟩
  | succ m ih =>
    intro i
    obtain ⟨k, hk, hklt⟩ := hr i
    obtain ⟨rest, hrest, hlen, hmem⟩ := ih (i + 1)
    refine ⟨charset.getD k 0 :: rest, ?_, by simp [hlen], ?_⟩
    · simp [drawChars, hk, hrest]
    · intro b hb
      rcases List.mem_cons.mp hb with h | h
      · exact h ▸ getD_mem_of_lt charset k 0 hklt
      · exact hmem b h

theorem drawChars_none (charset : List Nat) (r : Nat → Option Nat) :
    ∀ (n i : Nat), drawChars charset r i n = none → ∃ j, r j = none := by
  intro n
  induction n with
  | zero => intro i h; simp [drawChars] at h
  | succ m ih =>
    intro i h
    unfold drawChars at h
    cases hri : r i with
    | none => exact ⟨i, hri⟩
    | some k =>
      rw [hri] at h
      cases hrec : drawChars charset r (i + 1) m with
      | none => exact ih (i + 1) hrec
      | some rest => rw [hrec] at h; simp at h

-- ## Claim theorems

/-- C1: for every configuration with `Length ≥ 1` and at least one
`include*` flag set, and every behaviour of the secure random source that
delivers an in-range index at every draw, `generatePassword` succeeds and
returns exactly `config.Length` characters, each drawn from
`buildCharset config`; when `ExcludeAmbiguous` is set, no returned character
is one of `0 O 1 l I`. -/
theorem generatePassword_ok (config : PasswordConfig) (r : Nat → Option Nat)
    (hlen : 1 ≤ config.Length)
    (hflag : config.IncludeUpper = true ∨ config.IncludeLower = true
      ∨ config.IncludeDigits = true ∨ config.IncludeSymbols = true)
    (hr : ∀ i, ∃ k, r i = some k ∧ k < (buildCharset config).length) :
    ∃ password, generatePassword config r = .ok password
      ∧ (password.length : Int) = config.Length
      ∧ ∀ b ∈ password, b ∈ buildCharset config
        ∧ (config.ExcludeAmbiguous = true → b ∉ Ambiguous) := by
  have hpos := buildCharset_nonempty config hflag
  obtain ⟨password, hdraw, hplen, hpmem⟩ :=
    drawChars_ok (buildCharset config) r hr config.Length.toNat 0
  refine ⟨password, ?_, ?_, ?_⟩
  · unfold generatePassword
    rw [if_neg (by omega), if_neg (by omega), hdraw]
  · rw [hplen, Int.toNat_of_nonneg (by omega)]
  · intro b hb
    exact ⟨hpmem b hb, fun hex => mem_buildCharset_of_exclude config hex b (hpmem b hb)⟩

/-- Witness for C1 at a concrete configuration (length 4, lowercase only,
ambiguous excluded) and the random source that always draws index 0. -/
theorem generatePassword_ok_witness :
    ∃ password, generatePassword ⟨4, false, true, false, false, true⟩ (fun _ => some 0)
        = .ok password
      ∧ (password.length : Int) = (4 : Int)
      ∧ ∀ b ∈ password, b ∈ buildCharset ⟨4, false, true, false, false, true⟩
        ∧ ((true : Bool) = true → b ∉ Ambiguous) :=
  generatePassword_ok ⟨4, false, true, false, false, true⟩ (fun _ => some 0)
    (by decide) (by decide) (fun i => ⟨0, rfl, by decide⟩)

/-- C8: when the built charset is non-empty but `config.Length` is negative,
`generatePassword` does not return an error value: the buffer allocation
panics.  An `error` outcome occurs only when the charset is empty or the
secure random source fails. -/
theorem generatePassword_negative_length (config : PasswordConfig) (r : Nat → Option Nat) :
    (0 < (buildCharset config).length → config.Length < 0 →
      generatePassword config r = .panic)
    ∧ (∀ msg, generatePassword config r = .error msg →
        (buildCharset config).length = 0 ∨ ∃ i, r i = none) := by
  constructor
  · intro hpos hneg
    unfold generatePassword
    rw [if_neg (by omega), if_pos hneg]
  · intro msg h
    unfold generatePassword at h
    by_cases hcs : (buildCharset config).length = 0
    · exact Or.inl hcs
    · rw [if_neg hcs] at h
      by_cases hneg : config.Length < 0
      · rw [if_pos hneg] at h
        simp at h
      · rw [if_neg hneg] at h
        cases hdraw : drawChars (buildCharset config) r 0 config.Length.toNat with
        | none => exact Or.inr (drawChars_none _ r _ 0 hdraw)
        | some password => rw [hdraw] at h; simp at h

/-- Witness for C8: a lowercase-only config of length −1 panics, and the
error outcome of the all-flags-off config implies its charset is empty. -/
theorem generatePassword_negative_length_witness :
    generatePassword ⟨-1, false, true, false, false, false⟩ (fun _ => some 0) = .panic
      ∧ ((buildCharset ⟨5, false, false, false, false, false⟩).length = 0
          ∨ ∃ i, (fun (_ : Nat) => some 0) i = none) :=
  ⟨(generatePassword_negative_length ⟨-1, false, true, false, false, false⟩
      (fun _ => some 0)).1 (by decide) (by decide),
   (generatePassword_negative_length ⟨5, false, false, false, false, false⟩
      (fun _ => some 0)).2 "no valid characters available for password generation" rfl⟩

/-- C9: the charset built for any configuration has pairwise-distinct
characters (each permitted character appears exactly once, so uniform index
sampling weights every permitted character equally). -/
theorem buildCharset_nodup (config : PasswordConfig) : (buildCharset config).Nodup := by
  have hfull : (LowerCase ++ UpperCase ++ Digits ++ Symbols).Nodup := by decide
  exact List.Nodup.sublist (buildCharset_sublist config) hfull

/-- C2 counterexample: `validateConfig` does fail on a zero length, but its
message is `"password length must be at least 1"`, not the claimed
`"length must be at least 1"`. -/
theorem validateConfig_message_counterexample :
    validateConfig ⟨0, true, true, true, true, false⟩
        ≠ some "length must be at least 1"
      ∧ validateConfig ⟨0, true, true, true, true, false⟩
        = some "password length must be at least 1"
      ∧ validateConfig ⟨5, false, false, false, false, false⟩
        ≠ some "at least one character type required"
      ∧ validateConfig ⟨5, false, false, false, false, false⟩
        = some "at least one character type must be enabled" := by
  refine ⟨by decide, by decide, by decide, by decide⟩

/-- C2 (amended): `validateConfig` fails exactly when `Length < 1` or no
`include*` flag is set; the length check comes first and produces exactly
`"password length must be at least 1"`, and the class check produces exactly
`"at least one character type must be enabled"`. -/
theorem validateConfig_spec (config : PasswordConfig) :
    (validateConfig config = none ↔
      1 ≤ config.Length ∧ (config.IncludeUpper = true ∨ config.IncludeLower = true
        ∨ config.IncludeDigits = true ∨ config.IncludeSymbols = true))
    ∧ validateConfig config =
      (if config.Length < 1 then some "password length must be at least 1"
       else if config.IncludeUpper = false ∧ config.IncludeLower = false
           ∧ config.IncludeDigits = false ∧ config.IncludeSymbols = false then
         some "at least one character type must be enabled"
       else none) := by
  rcases config with ⟨L, u, lo, d, s, e⟩
  cases u <;> cases lo <;> cases d <;> cases s <;>
    simp [validateConfig] <;> split_ifs <;> simp_all

/-- C3 counterexample: applying the `aws` policy (`MaxLength = 128`) to a
config of length 200 lowers the length to 128, so `ApplyPolicyToConfig` does
not always keep the length at least its previous value. -/
theorem ApplyPolicyToConfig_lowers_length :
    (ApplyPolicyToConfig awsPolicy ⟨200, false, false, false, false, false⟩).Length = 128
      ∧ ¬(200 : Int) ≤
        (ApplyPolicyToConfig awsPolicy ⟨200, false, false, false, false, false⟩).Length := by
  refine ⟨by decide, by decide⟩

/-- Closed form of the sequential field updates of `ApplyPolicyToConfig`. -/
theorem ApplyPolicyToConfig_eq (policy : PasswordPolicy) (L : Int) (u lo d s e : Bool) :
    ApplyPolicyToConfig policy ⟨L, u, lo, d, s, e⟩ =
      ⟨(if policy.MaxLength > 0
            && (if L < policy.MinLength then policy.MinLength else L) > policy.MaxLength
          then policy.MaxLength
          else if L < policy.MinLength then policy.MinLength else L),
        u || policy.RequireUpper, lo || policy.RequireLower, d || policy.RequireDigits,
        s || policy.RequireSymbols, e || policy.ExcludeAmbiguous⟩ := by
  rcases policy with ⟨n, de, minL, maxL, ru, rl, rd, rs, mu, ml, md, ms, ea, fc, fp, me⟩
  simp only [ApplyPolicyToConfig]
  by_cases hL : L < minL <;>
    cases ru <;> cases rl <;> cases rd <;> cases rs <;> cases ea <;>
      simp [hL] <;> split_ifs <;> simp

/-- C3 (amended): `ApplyPolicyToConfig` never turns any of the five flags
from true to false, and never lowers the length except in the one capping
case: when `policy.MaxLength > 0` and the length exceeds it, the length
becomes exactly `policy.MaxLength`. -/
theorem ApplyPolicyToConfig_monotone (policy : PasswordPolicy) (config : PasswordConfig) :
    config.IncludeUpper ≤ (ApplyPolicyToConfig policy config).IncludeUpper
    ∧ config.IncludeLower ≤ (ApplyPolicyToConfig policy config).IncludeLower
    ∧ config.IncludeDigits ≤ (ApplyPolicyToConfig policy config).IncludeDigits
    ∧ config.IncludeSymbols ≤ (ApplyPolicyToConfig policy config).IncludeSymbols
    ∧ config.ExcludeAmbiguous ≤ (ApplyPolicyToConfig policy config).ExcludeAmbiguous
    ∧ (config.Length ≤ (ApplyPolicyToConfig policy config).Length
        ∨ (0 < policy.MaxLength ∧ policy.MaxLength < config.Length
            ∧ (ApplyPolicyToConfig policy config).Length = policy.MaxLength)) := by
  rcases config with ⟨L, u, lo, d, s, e⟩
  rw [ApplyPolicyToConfig_eq]
  refine ⟨?_, ?_, ?_, ?_, ?_, ?_⟩
  · cases u <;> simp
  · cases lo <;> simp
  · cases d <;> simp
  · cases s <;> simp
  · cases e <;> simp
  · simp only [Bool.and_eq_true, decide_eq_true_eq]
    split_ifs <;> simp_all <;> omega

/-- C4: the analyzer's score is always within [0,100], the reported level is
`getStrengthLevel` of that score, and the score-to-level boundaries are
exact: `<20` VeryWeak, `20–39` Weak, `40–59` Fair, `60–79` Good, `80–94`
Strong, `≥95` VeryStrong. -/
theorem AnalyzePasswordStrength_spec (password : List Nat) (s : Int) :
    0 ≤ (AnalyzePasswordStrength password).Score
    ∧ (AnalyzePasswordStrength password).Score ≤ 100
    ∧ (AnalyzePasswordStrength password).Level
        = getStrengthLevel (AnalyzePasswordStrength password).Score
    ∧ (getStrengthLevel s = .VeryWeak ↔ s < 20)
    ∧ (getStrengthLevel s = .Weak ↔ 20 ≤ s ∧ s < 40)
    ∧ (getStrengthLevel s = .Fair ↔ 40 ≤ s ∧ s < 60)
    ∧ (getStrengthLevel s = .Good ↔ 60 ≤ s ∧ s < 80)
    ∧ (getStrengthLevel s = .Strong ↔ 80 ≤ s ∧ s < 95)
    ∧ (getStrengthLevel s = .VeryStrong ↔ 95 ≤ s) := by
  have hclamp : ∀ z : Int, 0 ≤ clampScore z ∧ clampScore z ≤ 100 := by
    intro z
    simp only [clampScore]
    split_ifs <;> omega
  obtain ⟨h1, h2⟩ := hclamp (lengthScore password.length + varietyScore password
    + patternPenalty password + entropyAdjust password)
  refine ⟨h1, h2, rfl, ?_, ?_, ?_, ?_, ?_, ?_⟩ <;>
    · simp only [getStrengthLevel]
      split_ifs <;> simp_all <;> omega

-- ## Helper lemmas: entropy

theorem penaltyNum_pos (p : List Nat) : 0 < penaltyNum p := by
  unfold penaltyNum
  split_ifs <;> norm_num

theorem penaltyDen_pos (p : List Nat) : 0 < penaltyDen p := by
  unfold penaltyDen
  split_ifs <;> norm_num

/-- Soundness of the exact integer decision procedure for entropy
comparisons: for positive rational thresholds, `entropyLtQ` decides the
real comparison `calculateEntropy p < t`. -/
theorem entropyLtQ_iff (p : List Nat) (t : ℚ) (ht : 0 < t) :
    entropyLtQ p t = true ↔ calculateEntropy p < (t : ℝ) := by
  by_cases hcs : charSpace p = 0
  · rw [entropyLtQ, if_pos hcs, calculateEntropy, if_pos hcs, decide_eq_true_iff]
    constructor
    · intro _; exact_mod_cast ht
    · intro _; exact ht
  · have hcs1 : 1 ≤ charSpace p := Nat.one_le_iff_ne_zero.mpr hcs
    have hnum := penaltyNum_pos p
    have hden := penaltyDen_pos p
    have htnum : 0 < t.num := Rat.num_pos.mpr ht
    have hcsR : (1 : ℝ) ≤ (charSpace p : ℝ) := by exact_mod_cast hcs1
    have hdenR : (0 : ℝ) < (penaltyDen p : ℝ) := by exact_mod_cast hden
    have htdenR : (0 : ℝ) < (t.den : ℝ) := by exact_mod_cast t.den_pos
    rw [entropyLtQ, if_neg hcs, decide_eq_true_iff, calculateEntropy, if_neg hcs]
    have hfac : (0 : ℝ) < (penaltyDen p : ℝ) * (t.den : ℝ) := by positivity
    rw [← mul_lt_mul_right hfac]
    have hL : (p.length : ℝ) * Real.logb 2 (charSpace p)
          * ((penaltyNum p : ℝ) / (penaltyDen p : ℝ))
          * ((penaltyDen p : ℝ) * (t.den : ℝ))
        = ((p.length * penaltyNum p * t.den : Nat) : ℝ) * Real.logb 2 (charSpace p) := by
      field_simp
      ring
    have hR : (t : ℝ) * ((penaltyDen p : ℝ) * (t.den : ℝ))
        = ((t.num.toNat * penaltyDen p : Nat) : ℝ) := by
      have htn : ((t.num.toNat : Nat) : ℝ) = (t.num : ℝ) := by
        exact_mod_cast Int.toNat_of_nonneg htnum.le
      rw [Rat.cast_def]
      push_cast [htn]
      field_simp
      ring
    rw [hL, hR]
    have h2M : ((t.num.toNat * penaltyDen p : Nat) : ℝ)
        = Real.logb 2 ((2 : ℝ) ^ (t.num.toNat * penaltyDen p)) := by
      rw [Real.logb_pow, Real.logb_self_eq_one (by norm_num)]
      ring
    have hKs : ((p.length * penaltyNum p * t.den : Nat) : ℝ) * Real.logb 2 (charSpace p)
        = Real.logb 2 ((charSpace p : ℝ) ^ (p.length * penaltyNum p * t.den)) := by
      rw [Real.logb_pow]
    rw [hKs, h2M, Real.logb_lt_logb_iff (by norm_num) (by positivity) (by positivity)]
    constructor
    · intro h
      exact_mod_cast h
    · intro h
      exact_mod_cast h

/-- C6: validating `"weak123"` against the corporate policy yields exactly
the seven violations MinLength, RequireUpper, RequireSymbols, MinUpper,
MinSymbols, ExcludeAmbiguous, MinEntropy, in the fixed check order; the
entropy check fires because the sequential run `"123"` is detected, the
character space is 36, and `7·log2(36)·0.7 < 40`. -/
theorem validate_corporate_weak123 :
    ValidatePasswordAgainstPolicy (strBytes "weak123") corporatePolicy
      = ["MinLength", "RequireUpper", "RequireSymbols", "MinUpper", "MinSymbols",
         "ExcludeAmbiguous", "MinEntropy"]
    ∧ (ValidatePasswordAgainstPolicy (strBytes "weak123") corporatePolicy).length = 7
    ∧ hasSequentialChars (strBytes "weak123") = true
    ∧ charSpace (strBytes "weak123") = 36
    ∧ calculateEntropy (strBytes "weak123") < 40 := by
  refine ⟨by decide, by decide, by decide, by decide, ?_⟩
  exact_mod_cast (entropyLtQ_iff (strBytes "weak123") 40 (by norm_num)).mp (by decide)

/-- C7 counterexample: the Symbols alphabet literally contains 26
characters, not the 27 asserted by the claim (the entropy model's symbol
contribution of 32 differs from the literal size either way). -/
theorem symbols_length_26 : Symbols.length = 26 ∧ Symbols.length ≠ 27 := by
  refine ⟨by decide, by decide⟩

/-- C7 (amended): for a non-empty password of symbol characters only with no
pattern penalty triggered, the entropy model credits the symbol class with a
space of exactly 32 — not the literal size of the Symbols alphabet, which is
26 — so the entropy is exactly `length * log2 32 = length * 5`. -/
theorem symbol_space_32 (password : List Nat) (hne : password ≠ [])
    (hsym : ∀ b ∈ password, isAlnumB b = false)
    (hrep : hasRepeatedChars password = false)
    (hseq : hasSequentialChars password = false)
    (hcom : hasCommonPatterns password = false) :
    Symbols.length = 26
    ∧ charSpace password = 32
    ∧ calculateEntropy password = (password.length : ℝ) * 5 := by
  have hclass : ∀ b ∈ password, isLowerB b = false ∧ isUpperB b = false
      ∧ isDigitB b = false := by
    intro b hb
    have h := hsym b hb
    simp [isAlnumB] at h
    exact ⟨h.1.1, h.1.2, h.2⟩
  have hlow : hasLowerIn password = false := by
    simp only [hasLowerIn, List.any_eq_false]
    intro b hb
    simp [(hclass b hb).1]
  have hup : hasUpperIn password = false := by
    simp only [hasUpperIn, List.any_eq_false]
    intro b hb
    simp [(hclass b hb).2.1]
  have hdig : hasDigitIn password = false := by
    simp only [hasDigitIn, List.any_eq_false]
    intro b hb
    simp [(hclass b hb).2.2]
  have hsymT : hasSymbolIn password = true := by
    rcases password with _ | ⟨b, rest⟩
    · exact absurd rfl hne
    · simp only [hasSymbolIn, List.any_cons]
      simp [hsym b (List.mem_cons_self b rest)]
  have hcs32 : charSpace password = 32 := by
    simp [charSpace, hlow, hup, hdig, hsymT]
  have hpn : penaltyNum password = 1 := by
    simp [penaltyNum, hrep, hseq, hcom]
  have hpd : penaltyDen password = 1 := by
    simp [penaltyDen, hrep, hseq, hcom]
  refine ⟨by decide, hcs32, ?_⟩
  rw [calculateEntropy, if_neg (by rw [hcs32]; norm_num), hcs32, hpn, hpd]
  have h32 : ((32 : Nat) : ℝ) = (2 : ℝ) ^ (5 : Nat) := by norm_num
  rw [h32, Real.logb_pow, Real.logb_self_eq_one (by norm_num)]
  norm_num

/-- Witness for C7 at the concrete symbol-only password `"!@#$"`. -/
theorem symbol_space_32_witness :
    strBytes "!@#$" ≠ [] ∧ (∀ b ∈ strBytes "!@#$", isAlnumB b = false)
    ∧ hasRepeatedChars (strBytes "!@#$") = false
    ∧ hasSequentialChars (strBytes "!@#$") = false
    ∧ hasCommonPatterns (strBytes "!@#$") = false
    ∧ calculateEntropy (strBytes "!@#$") = ((strBytes "!@#$").length : ℝ) * 5 :=
  ⟨by decide, by decide, by decide, by decide, by decide,
   (symbol_space_32 (strBytes "!@#$") (by decide) (by decide) (by decide)
     (by decide) (by decide)).2.2⟩

theorem hasLowerIn_append (p : List Nat) (b : Nat) :
    hasLowerIn (p ++ [b]) = (hasLowerIn p || isLowerB b) := by
  simp [hasLowerIn]

theorem hasUpperIn_append (p : List Nat) (b : Nat) :
    hasUpperIn (p ++ [b]) = (hasUpperIn p || isUpperB b) := by
  simp [hasUpperIn]

theorem hasDigitIn_append (p : List Nat) (b : Nat) :
    hasDigitIn (p ++ [b]) = (hasDigitIn p || isDigitB b) := by
  simp [hasDigitIn]

theorem hasSymbolIn_append (p : List Nat) (b : Nat) :
    hasSymbolIn (p ++ [b]) = (hasSymbolIn p || !isAlnumB b) := by
  simp [hasSymbolIn]

theorem charSpace_append_eq (p : List Nat) (b : Nat)
    (h : (isLowerB b = true ∧ hasLowerIn p = true)
      ∨ (isUpperB b = true ∧ hasUpperIn p = true)
      ∨ (isDigitB b = true ∧ hasDigitIn p = true)
      ∨ (isAlnumB b = false ∧ hasSymbolIn p = true)) :
    charSpace (p ++ [b]) = charSpace p := by
  rcases h with ⟨hb, hp⟩ | ⟨hb, hp⟩ | ⟨hb, hp⟩ | ⟨hb, hp⟩
  · have hU : isUpperB b = false := by
      simp [isLowerB] at hb
      simp [isUpperB]
      omega
    have hD : isDigitB b = false := by
      simp [isLowerB] at hb
      simp [isDigitB]
      omega
    have hA : isAlnumB b = true := by simp [isAlnumB, hb]
    simp [charSpace, hasLowerIn_append, hasUpperIn_append, hasDigitIn_append,
      hasSymbolIn_append, hp, hb, hU, hD, hA]
  · have hL : isLowerB b = false := by
      simp [isUpperB] at hb
      simp [isLowerB]
      omega
    have hD : isDigitB b = false := by
      simp [isUpperB] at hb
      simp [isDigitB]
      omega
    have hA : isAlnumB b = true := by simp [isAlnumB, hb]
    simp [charSpace, hasLowerIn_append, hasUpperIn_append, hasDigitIn_append,
      hasSymbolIn_append, hp, hb, hL, hD, hA]
  · have hL : isLowerB b = false := by
      simp [isDigitB] at hb
      simp [isLowerB]
      omega
    have hU : isUpperB b = false := by
      simp [isDigitB] at hb
      simp [isUpperB]
      omega
    have hA : isAlnumB b = true := by simp [isAlnumB, hb]
    simp [charSpace, hasLowerIn_append, hasUpperIn_append, hasDigitIn_append,
      hasSymbolIn_append, hp, hb, hL, hU, hA]
  · have hcls := hb
    simp [isAlnumB] at hcls
    simp [charSpace, hasLowerIn_append, hasUpperIn_append, hasDigitIn_append,
      hasSymbolIn_append, hp, hb, hcls.1.1, hcls.1.2, hcls.2]

/-- C5: the entropy of the empty password is 0, and appending a character
of a class already present — when it triggers no pattern detector that was
not already triggered — never decreases the entropy. -/
theorem calculateEntropy_monotone :
    calculateEntropy [] = 0
    ∧ ∀ (p : List Nat) (b : Nat),
      ((isLowerB b = true ∧ hasLowerIn p = true)
        ∨ (isUpperB b = true ∧ hasUpperIn p = true)
        ∨ (isDigitB b = true ∧ hasDigitIn p = true)
        ∨ (isAlnumB b = false ∧ hasSymbolIn p = true)) →
      hasRepeatedChars (p ++ [b]) = hasRepeatedChars p →
      hasSequentialChars (p ++ [b]) = hasSequentialChars p →
      hasCommonPatterns (p ++ [b]) = hasCommonPatterns p →
      calculateEntropy p ≤ calculateEntropy (p ++ [b]) := by
  constructor
  · rw [calculateEntropy, if_pos (by decide)]
  · intro p b hcls hrep hseq hcom
    have hcsne : charSpace p ≠ 0 := by
      unfold charSpace
      rcases hcls with ⟨_, hp⟩ | ⟨_, hp⟩ | ⟨_, hp⟩ | ⟨_, hp⟩ <;>
        simp [hp]
    have hcseq := charSpace_append_eq p b hcls
    have hpn : penaltyNum (p ++ [b]) = penaltyNum p := by
      simp [penaltyNum, hrep, hseq, hcom]
    have hpd : penaltyDen (p ++ [b]) = penaltyDen p := by
      simp [penaltyDen, hrep, hseq, hcom]
    simp only [calculateEntropy]
    rw [hcseq, hpn, hpd, if_neg hcsne, if_neg hcsne]
    have hlen : ((p ++ [b]).length : ℝ) = (p.length : ℝ) + 1 := by
      simp
    rw [hlen]
    have hLnn : 0 ≤ Real.logb 2 (charSpace p) :=
      Real.logb_nonneg (by norm_num)
        (by exact_mod_cast Nat.one_le_iff_ne_zero.mpr hcsne)
    have hPnn : 0 ≤ (penaltyNum p : ℝ) / (penaltyDen p : ℝ) := by positivity
    have hstep : (p.length : ℝ) ≤ (p.length : ℝ) + 1 := by linarith
    exact mul_le_mul_of_nonneg_right (mul_le_mul_of_nonneg_right hstep hLnn) hPnn

/-- Witness for C5: appending a lowercase letter to `"ab"` (no detector
changes) does not decrease entropy. -/
theorem calculateEntropy_monotone_witness :
    (isLowerB 97 = true ∧ hasLowerIn (strBytes "ab") = true)
    ∧ hasRepeatedChars (strBytes "ab" ++ [97]) = hasRepeatedChars (strBytes "ab")
    ∧ hasSequentialChars (strBytes "ab" ++ [97]) = hasSequentialChars (strBytes "ab")
    ∧ hasCommonPatterns (strBytes "ab" ++ [97]) = hasCommonPatterns (strBytes "ab")
    ∧ calculateEntropy (strBytes "ab") ≤ calculateEntropy (strBytes "ab" ++ [97]) :=
  ⟨⟨rfl, rfl⟩, by decide, by decide, by decide,
   calculateEntropy_monotone.2 (strBytes "ab") 97 (Or.inl ⟨rfl, rfl⟩)
     (by decide) (by decide) (by decide)⟩

theorem toLowerB_idem (b : Nat) : toLowerB (toLowerB b) = toLowerB b := by
  simp only [toLowerB]
  split_ifs with h1 h2 <;> first | rfl | (simp_all; omega)

theorem map_toLowerB_idem (p : List Nat) : (p.map toLowerB).map toLowerB = p.map toLowerB := by
  induction p with
  | nil => rfl
  | cons a t ih => simp [toLowerB_idem, ih]

theorem toLowerB_not_upper (b : Nat) : isUpperB (toLowerB b) = false := by
  simp only [toLowerB, isUpperB]
  split_ifs with h <;> simp_all <;> omega

theorem rowHit_upper_false (p : List Nat) (seq : List Nat)
    (hup : ∀ x ∈ seq, isUpperB x = true) :
    rowHit (p.map toLowerB) seq = false := by
  rw [rowHit, List.any_eq_false]
  intro i hi
  rw [List.mem_range] at hi
  intro hcon
  have hinf : (seq.drop i).take 3 <:+: p.map toLowerB := by
    rwa [containsSub, decide_eq_true_eq] at hcon
  have hwlen : ((seq.drop i).take 3).length = 3 := by
    rw [List.length_take, List.length_drop]
    omega
  obtain ⟨x, hxw⟩ : ∃ x, x ∈ (seq.drop i).take 3 := by
    rcases hw : (seq.drop i).take 3 with _ | ⟨y, t⟩
    · rw [hw] at hwlen; simp at hwlen
    · exact ⟨y, List.mem_cons_self y t⟩
  have hxseq : x ∈ seq := (List.drop_subset i seq) ((List.take_subset 3 (seq.drop i)) hxw)
  have hxup := hup x hxseq
  obtain ⟨s, t, hst⟩ := hinf
  have hxlower : x ∈ p.map toLowerB := by
    rw [← hst]
    simp [hxw]
  obtain ⟨y, _, rfl⟩ := List.mem_map.mp hxlower
  rw [toLowerB_not_upper y] at hxup
  exact absurd hxup (by simp)

/-- C10: sequential-run detection is insensitive to the case of the input
(the detector lowercases the password first), and the uppercase sequences in
its table can never match: dropping them changes nothing. -/
theorem hasSequentialChars_lower_fold (password : List Nat) :
    hasSequentialChars password = hasSequentialChars (password.map toLowerB)
    ∧ hasSequentialChars password = hasSequentialCharsTrimmed password := by
  constructor
  · simp only [hasSequentialChars]
    rw [map_toLowerB_idem]
  · simp only [hasSequentialChars, hasSequentialCharsTrimmed, sequences, lowerSequences,
      List.any_cons, List.any_nil]
    rw [rowHit_upper_false password (strBytes "ABCDEFGHIJKLMNOPQRSTUVWXYZ") (by decide),
        rowHit_upper_false password (strBytes "QWERTYUIOP") (by decide),
        rowHit_upper_false password (strBytes "ASDFGHJKL") (by decide),
        rowHit_upper_false password (strBytes "ZXCVBNM") (by decide),
        rowHit_upper_false password ((strBytes "ABCDEFGHIJKLMNOPQRSTUVWXYZ").reverse) (by decide),
        rowHit_upper_false password ((strBytes "QWERTYUIOP").reverse) (by decide),
        rowHit_upper_false password ((strBytes "ASDFGHJKL").reverse) (by decide),
        rowHit_upper_false password ((strBytes "ZXCVBNM").reverse) (by decide)]
    simp [Bool.or_assoc, Bool.or_comm, Bool.or_left_comm]
